import Mathlib

/-!
Verification development for the EMR data reconciliation pipeline
(`core/data_processor.py`, `core/kml_generator.py`).

The Python source is shallowly embedded: every cell value is modelled as the
string pandas would render for it (`astype(str)` is then the identity), a raw
sheet is a header list plus a list of rows of cells, and each regular
expression used by the source is translated into an executable Lean function
whose input/output behaviour matches Python `re` semantics on the pattern in
question (leftmost match, lazy/greedy group semantics, `$` matching at the end
of the string or before one final newline, `.` not matching a newline).
-/

namespace EMR

/-! ## Character classes (Python `re` classes, ASCII fragment) -/

/-- Python `\d` (ASCII fragment). -/
def isDigitChar (c : Char) : Bool := '0' ≤ c && c ≤ '9'

/-- Python `[A-Z]`. -/
def isUpperAZ (c : Char) : Bool := 'A' ≤ c && c ≤ 'Z'

/-- Python `\s` (ASCII fragment: space, tab, newline, carriage return,
vertical tab, form feed). -/
def isWsChar (c : Char) : Bool :=
  c == ' ' || c == '\t' || c == '\n' || c == '\r' || c == '\x0b' || c == '\x0c'

/-- Python `\w` (ASCII fragment: letters, digits, underscore). -/
def isWordChar (c : Char) : Bool :=
  isDigitChar c || isUpperAZ c || ('a' ≤ c && c ≤ 'z') || c == '_'

/-- Python `str.lower` on one character (ASCII fragment). -/
def lowerChar (c : Char) : Char :=
  if isUpperAZ c then Char.ofNat (c.toNat + 32) else c

/-- Python `str.lower` (ASCII fragment). -/
def lowerStr (s : String) : String := String.mk (s.toList.map lowerChar)

/-! ## Substring containment

`pandas.Series.str.contains('active|home care|pending')` is regex alternation
of literals, i.e. "some keyword occurs as a substring". -/

/-- List `pat` occurs at the head of `s`. -/
def headMatches : List Char → List Char → Bool
  | [], _ => true
  | _ :: _, [] => false
  | a :: as, b :: bs => a == b && headMatches as bs

/-- List `pat` occurs somewhere inside `s` (contiguously). -/
def subList (pat : List Char) : List Char → Bool
  | [] => pat.isEmpty
  | c :: rest => headMatches pat (c :: rest) || subList pat rest

/-- String `pat` occurs as a contiguous substring of `s`. -/
def isSubstr (pat s : String) : Bool := subList pat.toList s.toList

/-! ## `extract_year_from_age` (data_processor.py lines 224-234)

`re.search(r'(\d+)y', age_str)`: the leftmost maximal digit run that is
immediately followed by a literal `y`; on a match the function returns
`f"{group1}y"`, otherwise the input unchanged. -/

/-- Scan for the leftmost digit run immediately followed by `y`.  A digit run
that is not followed by `y` cannot contain a later match ending inside it, so
restarting the scan one character later is equivalent to skipping the run. -/
def yearScan : List Char → Option (List Char)
  | [] => none
  | c :: rest =>
    if isDigitChar c then
      let run := c :: rest.takeWhile isDigitChar
      match rest.dropWhile isDigitChar with
      | 'y' :: _ => some run
      | _ => yearScan rest
    else yearScan rest

/-- Model of `extract_year_from_age` for string-valued cells (non-string
cells are passed through unchanged by the source and do not arise in this
embedding, which renders every cell as a string). -/
def extract_year_from_age (ageStr : String) : String :=
  match yearScan ageStr.toList with
  | some run => String.mk run ++ "y"
  | none => ageStr

/-! ## The `clean_address` regular expressions (data_processor.py lines 171-222)

Each regex of `clean_address` is translated into a function whose behaviour
on every input is derived from Python `re` semantics for that one pattern. -/

/-- Python `str.strip()` (ASCII whitespace fragment). -/
def stripWs (s : String) : String :=
  String.mk (((s.toList.dropWhile isWsChar).reverse.dropWhile isWsChar).reverse)

/-- Split exactly five leading digits off a character list, if present. -/
def fiveDigitsSplit : List Char → Option (List Char × List Char)
  | a :: b :: c :: d :: e :: rest =>
    if isDigitChar a && isDigitChar b && isDigitChar c && isDigitChar d && isDigitChar e then
      some ([a, b, c, d, e], rest)
    else none
  | _ => none

/-- Test for a `\b\d{5}\b` match starting at `c`: the previous character
must not be a word character, `c` and the next four characters must be
digits, and the character after them (if any) must not be a word
character. -/
def zipHere (prevWord : Bool) (c : Char) (cs : List Char) : Option String :=
  if prevWord || !isDigitChar c then none
  else
    match cs with
    | b :: d :: e :: f :: rest =>
      if isDigitChar b && isDigitChar d && isDigitChar e && isDigitChar f &&
          (match rest with | [] => true | r :: _ => !isWordChar r) then
        some (String.mk [c, b, d, e, f])
      else none
    | _ => none

/-- Scanner for `re.findall(r'\b\d{5}\b', s)`: all non-overlapping runs of
exactly five digits delimited by word boundaries, left to right.  Scanning
character by character is equivalent to the non-overlapping scan of
`re.findall` because `\b` cannot hold inside a digit run, so no new match
can start inside a previous one. -/
def findZipsAux : Bool → List Char → List String
  | _, [] => []
  | prevWord, c :: cs =>
    match zipHere prevWord c cs with
    | some z => z :: findZipsAux (isWordChar c) cs
    | none => findZipsAux (isWordChar c) cs

/-- Model of `re.findall(r'\b\d{5}\b', s)`. -/
def findZips (s : String) : List String := findZipsAux false s.toList

/-- Positions where Python `$` (without `re.MULTILINE`) matches: the end of
the string, or just before one final newline. -/
def dollarOk : List Char → Bool
  | [] => true
  | ['\n'] => true
  | _ => false

/-- Matcher for `,\s*([A-Z]{2})\s*(\d{5})` consuming the whole remaining
input up to a `$` position; returns the two groups.  The greedy `\s*` runs
are deterministic here because whitespace can satisfy neither `[A-Z]` nor
`\d`. -/
def tailStateZip : List Char → Option (String × String)
  | ',' :: rest =>
    match rest.dropWhile isWsChar with
    | s1 :: s2 :: r2 =>
      if isUpperAZ s1 && isUpperAZ s2 then
        match fiveDigitsSplit (r2.dropWhile isWsChar) with
        | some (ds, r4) =>
          if dollarOk r4 then some (String.mk [s1, s2], String.mk ds) else none
        | none => none
      else none
    | _ => none
  | _ => none

/-- Lazy growth of the `(.+?)` group of
`re.search(r'(.+?)(?:,\s*([A-Z]{2})\s*(\d{5}))?$', address)` from one start
position: after each consumed character (which must not be a newline, since
`.` does not match one) the engine first tries the optional group against the
remainder, then an empty optional group followed by `$`. -/
def locMatchAux (acc : List Char) : List Char → Option (String × Option (String × String))
  | [] => none
  | c :: rest =>
    if c == '\n' then none
    else
      match tailStateZip rest with
      | some g => some (String.mk (c :: acc).reverse, some g)
      | none =>
        if dollarOk rest then some (String.mk (c :: acc).reverse, none)
        else locMatchAux (c :: acc) rest

/-- Model of `re.search(r'(.+?)(?:,\s*([A-Z]{2})\s*(\d{5}))?$', address)`:
the leftmost start position wins, and at that position the group is grown
lazily (`locMatchAux`). -/
def locSearch : List Char → Option (String × Option (String × String))
  | [] => none
  | c :: rest =>
    match locMatchAux [] (c :: rest) with
    | some r => some r
    | none => locSearch rest

/-- Tail test for `(?:,\s*([^,]+))(?:,\s*[A-Z]{2}\s*\d{5})$` at a candidate
end of the first group: a comma, then at least one character none of which is
a comma (the greedy `\s*`/`[^,]+` pair jointly matches exactly the run up to
the next comma), then `,\s*[A-Z]{2}\s*\d{5}` reaching a `$` position. -/
def cityTail : List Char → Bool
  | ',' :: r =>
    let seg := r.takeWhile (fun c => c != ',')
    if seg.isEmpty then false
    else
      match tailStateZip (r.dropWhile (fun c => c != ',')) with
      | some _ => true
      | none => false
  | _ => false

/-- Lazy growth of `(.+?)` for
`re.search(r'(.+?)(?:,\s*([^,]+))(?:,\s*[A-Z]{2}\s*\d{5})$', address)`;
returns group 1 (the only group the source uses). -/
def cityMatchAux (acc : List Char) : List Char → Option (List Char)
  | [] => none
  | c :: rest =>
    if c == '\n' then none
    else if cityTail rest then some (c :: acc).reverse
    else cityMatchAux (c :: acc) rest

/-- Model of the group-1 result of
`re.search(r'(.+?)(?:,\s*([^,]+))(?:,\s*[A-Z]{2}\s*\d{5})$', address)`. -/
def cityMatchSearch : List Char → Option (List Char)
  | [] => none
  | c :: rest =>
    match cityMatchAux [] (c :: rest) with
    | some g => some g
    | none => cityMatchSearch rest

/-- Model of `re.sub(r'[,\s]+$', '', s)`: the leftmost greedy match of a
class run ending at a `$` position coincides with the maximal trailing run
of commas and whitespace (a final newline is itself in the class), so the
substitution trims that run. -/
def rstripCommaWs (s : String) : String :=
  String.mk ((s.toList.reverse.dropWhile (fun c => c == ',' || isWsChar c)).reverse)

/-- Model of `re.sub(r',?\s+\d{5}$', '', s)`: if the string (up to one final
newline, where `$` may also match) ends in five digits preceded by at least
one whitespace character, the digits, the whitespace run, and one optional
comma before it are removed. -/
def subTrailZip (s : String) : String :=
  let cs := s.toList
  let core := match cs.getLast? with
    | some '\n' => cs.dropLast
    | _ => cs
  let nl : List Char := match cs.getLast? with
    | some '\n' => ['\n']
    | _ => []
  match core.reverse with
  | d1 :: d2 :: d3 :: d4 :: d5 :: rest =>
    if isDigitChar d1 && isDigitChar d2 && isDigitChar d3 && isDigitChar d4 &&
        isDigitChar d5 && !(rest.takeWhile isWsChar).isEmpty then
      let rest2 := rest.dropWhile isWsChar
      let rest3 := match rest2 with
        | ',' :: r => r
        | r => r
      String.mk (rest3.reverse ++ nl)
    else s
  | _ => s

/-- Matcher for `(Apt\s+[\w\d]+),\s*[^,]+$` starting exactly here (the
pattern can only start at a literal `Apt`): on success, return the text of
group 1; the rest of the match runs to the end of the string (the greedy
`[^,]+` requires the remainder after the comma to be non-empty and
comma-free and then reaches the end, where `$` matches). -/
def aptMatchAt : List Char → Option (List Char)
  | 'A' :: 'p' :: 't' :: rest =>
    let ws := rest.takeWhile isWsChar
    if ws.isEmpty then none
    else
      let r2 := rest.dropWhile isWsChar
      let wr := r2.takeWhile isWordChar
      if wr.isEmpty then none
      else
        match r2.dropWhile isWordChar with
        | ',' :: tail =>
          if !tail.isEmpty && tail.all (fun c => c != ',') then
            some ('A' :: 'p' :: 't' :: (ws ++ wr))
          else none
        | _ => none
  | _ => none

/-- Leftmost scan for `re.sub(r'(Apt\s+[\w\d]+),\s*[^,]+$', r'\1', s)`; a
successful match extends to the end of the string, so at most one
replacement happens and nothing follows it. -/
def subAptAux : List Char → List Char
  | [] => []
  | c :: rest =>
    match aptMatchAt (c :: rest) with
    | some g1 => g1
    | none => c :: subAptAux rest

/-- Model of `re.sub(r'(Apt\s+[\w\d]+),\s*[^,]+$', r'\1', s)`. -/
def subApt (s : String) : String := String.mk (subAptAux s.toList)

/-- Prefix test for `\s*[A-Z]{2}\s*\d{5}` (not anchored at the end):
whitespace, two capitals, whitespace, five digits, anything after. -/
def stateZipPrefixCheck (cs : List Char) : Bool :=
  match cs.dropWhile isWsChar with
  | a :: b :: r2 =>
    if isUpperAZ a && isUpperAZ b then
      match fiveDigitsSplit (r2.dropWhile isWsChar) with
      | some _ => true
      | none => false
    else false
  | _ => false

/-- Tail test for `,\s*([^,]+),\s*[A-Z]{2}\s*\d{5}` at a candidate end of
group 1 of the street pattern: a comma, a non-empty comma-free segment, a
second comma, then state and zip as a prefix. -/
def streetCityTail : List Char → Bool
  | ',' :: r =>
    let seg := r.takeWhile (fun c => c != ',')
    if seg.isEmpty then false
    else
      match r.dropWhile (fun c => c != ',') with
      | ',' :: r3 => stateZipPrefixCheck r3
      | _ => false
  | _ => false

/-- Greedy growth of `(.+)` for
`re.match(r'(.+),\s*([^,]+),\s*[A-Z]{2}\s*\d{5}', s)` (anchored at the
start, not at the end): among all split points the largest group 1 that is
newline-free and whose remainder passes `streetCityTail` wins. -/
def streetCityAux (acc : List Char) : List Char → Option (List Char)
  | [] => none
  | c :: rest =>
    if c == '\n' then none
    else
      match streetCityAux (c :: acc) rest with
      | some g => some g
      | none => if streetCityTail rest then some (c :: acc).reverse else none

/-- Model of the group-1 result of
`re.match(r'(.+),\s*([^,]+),\s*[A-Z]{2}\s*\d{5}', s)`. -/
def streetCityMatch (s : String) : Option String :=
  (streetCityAux [] s.toList).map String.mk

/-- Prefix matcher for `\s*([A-Z]{2})\s*\d{5}`, returning the state group. -/
def stateZipPrefixGroups (cs : List Char) : Option String :=
  match cs.dropWhile isWsChar with
  | a :: b :: r2 =>
    if isUpperAZ a && isUpperAZ b then
      match fiveDigitsSplit (r2.dropWhile isWsChar) with
      | some _ => some (String.mk [a, b])
      | none => none
    else none
  | _ => none

/-- Match attempt for `([^,]+),\s*([A-Z]{2})\s*\d{5}` at one start position:
the greedy `[^,]+` runs to the first comma (it cannot cross it, and
shrinking it cannot help because the following literal comma would then face
a non-comma character), after which state and zip must follow. -/
def citySearchAt : List Char → Option (String × String)
  | [] => none
  | c :: rest =>
    if c == ',' then none
    else
      let cs := c :: rest
      match cs.dropWhile (fun x => x != ',') with
      | ',' :: r =>
        match stateZipPrefixGroups r with
        | some st => some (String.mk (cs.takeWhile (fun x => x != ',')), st)
        | none => none
      | _ => none

/-- Model of `re.search(r'([^,]+),\s*([A-Z]{2})\s*\d{5}', address)` returning
`(group 1, group 2)`: leftmost start position wins. -/
def citySearchList : List Char → Option (String × String)
  | [] => none
  | c :: rest =>
    match citySearchAt (c :: rest) with
    | some g => some g
    | none => citySearchList rest

/-- Model of `clean_address` (data_processor.py lines 171-222) for string
cells.  The `city`/`state` parameters are unused by the source; the embedded
zip comparison at the top of the source function only reassigns a local
variable and never affects the returned value, so it is omitted here.  The
returned value is the cleaned address only (the source returns only
`clean_address`). -/
def clean_address (address _city _state _zipCode : String) : String :=
  let step1 :=
    match locSearch address.toList with
    | some (g1, some _) =>
      match cityMatchSearch address.toList with
      | some g1' => stripWs (String.mk g1')
      | none => stripWs g1
    | some (g1, none) => stripWs g1
    | none => address
  let step2 := rstripCommaWs step1
  let step3 := subTrailZip step2
  let step4 := subApt step3
  match streetCityMatch step4 with
  | some g1 => g1
  | none => step4

/-! ## Raw sheets and column resolution (data_processor.py lines 258-358)

A sheet is the header row plus the data rows of one Excel file, every cell
rendered as its string form (so `astype(str)` is the identity).  Rows are
assumed rectangular (cell `i` of each row belongs to column `i`); pandas
column access by name is modelled by the index of the first header with that
name (header names are unique in the inputs considered). -/

structure Sheet where
  headers : List String
  rows : List (List String)
deriving DecidableEq, Repr

/-- Index of the first occurrence of `x` (0 when absent; only used when
presence was checked). -/
def idxOf (x : String) : List String → Nat
  | [] => 0
  | h :: t => if h == x then 0 else idxOf x t + 1

/-- The `column_mapping` dict of `process_excel_file` (lines 290-300), in its
insertion order. -/
def columnMapping : List (String × String) :=
  [("Patient Id", "Patient_Id"), ("First Name", "First_Name"),
   ("Last Name", "Last_Name"), ("Age", "Age"), ("Address", "Address"),
   ("City", "City"), ("State", "State"), ("Zip", "Zip"), ("Status", "Status")]

/-- The `keep_statuses` allow-list (line 382), also the keywords of the
status content signature (lines 321 and 335). -/
def keepStatusKeywords : List String := ["active", "home care", "pending"]

/-- Model of `series.astype(str).str.lower().str.contains('active|home care|pending').any()`:
some value's lowercase form has one of the keywords as a substring. -/
def statusSignature (vals : List String) : Bool :=
  vals.any (fun v => keepStatusKeywords.any (fun k => isSubstr k (lowerStr v)))

/-- Values of column `i` of a sheet. -/
def colVals (s : Sheet) (i : Nat) : List String :=
  s.rows.map (fun r => r.getD i "")

/-- Tier 1 of the column resolution (lines 302-308): for each entry of
`column_mapping` whose original header is present, bind the canonical name
to that column. -/
def resolveByName (headers : List String) : List (String × Nat) :=
  columnMapping.filterMap (fun p =>
    if headers.contains p.1 then some (p.2, idxOf p.1 headers) else none)

/-- Tier 2 (lines 311-327): when `Status` was not found by name, try column
21 if the sheet has more than 21 columns and that column's values satisfy
the status signature. -/
def statusTier2 (s : Sheet) : Option Nat :=
  if s.headers.length > 21 && statusSignature (colVals s 21) then some 21 else none

/-- Tier 3 (lines 329-341): scan every column left to right and take the
first whose values satisfy the status signature.  The source does not skip
columns already bound to another canonical field. -/
def statusTier3 (s : Sheet) : Option Nat :=
  (List.range s.headers.length).find? (fun i => statusSignature (colVals s i))

/-- The complete column resolution of `process_excel_file`: name matching
for every canonical field, then the positional and content-signature
fallbacks for `Status` only (`df['Status'] = df.iloc[:, i]` makes the found
column available under the canonical name, modelled as the binding
`("Status", i)`). -/
def resolveColumns (s : Sheet) : List (String × Nat) :=
  let byName := resolveByName s.headers
  if s.headers.contains "Status" then byName
  else
    match statusTier2 s with
    | some i => byName ++ [("Status", i)]
    | none =>
      match statusTier3 s with
      | some i => byName ++ [("Status", i)]
      | none => byName

/-- The `required_columns` list of line 350. -/
def requiredColumns : List String := ["Patient_Id", "Address", "Status"]

/-- Whether a canonical field is bound. -/
def hasField (binds : List (String × Nat)) (f : String) : Bool :=
  binds.any (fun b => b.1 == f)

/-- Value of the bound column for canonical field `f` in row `r` (empty when
unbound; only used for bound fields). -/
def getColD (binds : List (String × Nat)) (r : List String) (f : String) : String :=
  match binds.find? (fun b => b.1 == f) with
  | some b => r.getD b.2 ""
  | none => ""

/-- Lowercased status of a row (line 379: `astype(str).str.lower()`). -/
def statusOfRow (binds : List (String × Nat)) (r : List String) : String :=
  lowerStr (getColD binds r "Status")

/-- The status filter of line 383:
`selected_df['Status'].str.contains('active|home care|pending')` keeps a row
exactly when its lowercased status has one of the keywords as a substring. -/
def keepRow (binds : List (String × Nat)) (r : List String) : Bool :=
  keepStatusKeywords.any (fun k => isSubstr k (statusOfRow binds r))

/-- One canonical output row of a processed CSV, with the fields the
downstream passes read. -/
structure CRow where
  patientId : String
  name : String
  age : String
  address : String
  city : String
  state : String
  zip : String
  status : String
deriving DecidableEq, Repr

/-- Model of `process_excel_file` (data_processor.py lines 258-468) from the
in-memory sheet onward.  `none` models every path on which the function
returns `None` and writes no output CSV: an empty sheet (line 281), no
resolvable column at all (line 357), a missing required column (line 355),
and the `IndexError` raised at line 423 when the status filter left no row
(`filtered_df[col].iloc[0]` on an empty frame), which the enclosing
`except` turns into `None`.  `some rows` models the written
`{office}_{discipline}_Processed.csv`. -/
def processSheet (s : Sheet) : Option (List CRow) :=
  if s.rows.isEmpty then none
  else
    let binds := resolveColumns s
    if binds.isEmpty then none
    else if requiredColumns.any (fun rq => !hasField binds rq) then none
    else
      let hasName := hasField binds "First_Name" && hasField binds "Last_Name"
      let fName := fun r =>
        if hasName then getColD binds r "First_Name" ++ " " ++ getColD binds r "Last_Name"
        else "[Name Not Available]"
      let fAge := fun r =>
        if hasField binds "Age" then extract_year_from_age (getColD binds r "Age") else "N/A"
      let fOpt := fun f r => if hasField binds f then getColD binds r f else "N/A"
      let filtered := s.rows.filter (keepRow binds)
      match filtered with
      | [] => none
      | r0 :: _ =>
        let valid := fOpt "Address" r0 != "N/A" && fOpt "City" r0 != "N/A" &&
          fOpt "State" r0 != "N/A" && fOpt "Zip" r0 != "N/A"
        some (filtered.map (fun r =>
          let origAddr := fOpt "Address" r
          let city0 := fOpt "City" r
          let state0 := fOpt "State" r
          let zip0 := fOpt "Zip" r
          let addr1 := if valid then clean_address origAddr city0 state0 zip0 else origAddr
          let czs :=
            if valid then
              match findZips origAddr with
              | [] => (city0, state0, zip0)
              | z :: zs =>
                let ez := zs.getLastD z
                if ez != zip0 then
                  match citySearchList origAddr.toList with
                  | some cst => (stripWs cst.1, cst.2, ez)
                  | none => (city0, state0, ez)
                else (city0, state0, zip0)
            else (city0, state0, zip0)
          { patientId := getColD binds r "Patient_Id"
            name := fName r
            age := fAge r
            address := addr1
            city := czs.1
            state := czs.2.1
            zip := czs.2.2
            status := statusOfRow binds r }))

/-! ## Therapist name stripping (data_processor.py lines 566-592)

`process_full_active_cases_report` cleans the therapist column with a loop
over four patterns:

    for pattern in [... four regexes ...]:
        selected_df['Therapist_Name'] =
          selected_df['Therapist'].astype(str)
            .str.replace(pattern, '', regex=True).str.strip()

Every iteration recomputes the column from the original `Therapist` value,
so each assignment overwrites the previous one. -/

/-- Matcher for `\d+\.?\d*` (a digit run, an optional dot, a digit run):
returns the remainder.  Greedy runs are deterministic because declining the
dot leaves a dot where the following element would have to match. -/
def numPart (cs : List Char) : Option (List Char) :=
  if (cs.takeWhile isDigitChar).isEmpty then none
  else
    match cs.dropWhile isDigitChar with
    | '.' :: r2 => some (r2.dropWhile isDigitChar)
    | r => some r

/-- Matcher for `\s*\(\d+\.?\d*\s*Active\s*Cases\)` at one position,
returning the remainder after the match. -/
def matchParenActive (cs : List Char) : Option (List Char) :=
  match cs.dropWhile isWsChar with
  | '(' :: r1 =>
    match numPart r1 with
    | some r2 =>
      let r3 := r2.dropWhile isWsChar
      if headMatches "Active".toList r3 then
        let r4 := (r3.drop 6).dropWhile isWsChar
        if headMatches "Cases".toList r4 then
          match r4.drop 5 with
          | ')' :: r5 => some r5
          | _ => none
        else none
      else none
    | none => none
  | _ => none

/-- Matcher for `\s*\(\d+\.?\d*\s*cases?\)` at one position (the greedy `s?`
takes an `s` when one is present). -/
def matchParenCases (cs : List Char) : Option (List Char) :=
  match cs.dropWhile isWsChar with
  | '(' :: r1 =>
    match numPart r1 with
    | some r2 =>
      let r3 := r2.dropWhile isWsChar
      if headMatches "case".toList r3 then
        match r3.drop 4 with
        | 's' :: ')' :: r5 => some r5
        | ')' :: r5 => some r5
        | _ => none
      else none
    | none => none
  | _ => none

/-- Matcher for `\s*\d+\.?\d*\s*Active\s*Cases` at one position. -/
def matchBareActive (cs : List Char) : Option (List Char) :=
  match numPart (cs.dropWhile isWsChar) with
  | some r2 =>
    let r3 := r2.dropWhile isWsChar
    if headMatches "Active".toList r3 then
      let r4 := (r3.drop 6).dropWhile isWsChar
      if headMatches "Cases".toList r4 then some (r4.drop 5) else none
    else none
  | none => none

/-- Matcher for `\s*\d+\.?\d*\s*cases?` at one position. -/
def matchBareCases (cs : List Char) : Option (List Char) :=
  match numPart (cs.dropWhile isWsChar) with
  | some r2 =>
    let r3 := r2.dropWhile isWsChar
    if headMatches "case".toList r3 then
      match r3.drop 4 with
      | 's' :: r5 => some r5
      | r5 => some r5
    else none
  | none => none

/-- Fuelled left-to-right non-overlapping substitution scan of `re.sub` with
an empty replacement.  Every matcher used here consumes at least one
character, so fuel `length + 1` always suffices. -/
def scanReplaceAux (m : List Char → Option (List Char)) : Nat → List Char → List Char
  | 0, cs => cs
  | _ + 1, [] => []
  | k + 1, c :: cs =>
    match m (c :: cs) with
    | some rest => scanReplaceAux m k rest
    | none => c :: scanReplaceAux m k cs

/-- Model of `re.sub(pattern, '', s)` for the caseload patterns. -/
def scanReplace (m : List Char → Option (List Char)) (cs : List Char) : List Char :=
  scanReplaceAux m (cs.length + 1) cs

/-- The four stripping patterns of lines 584-589, in source order. -/
def caseloadStripMatchers : List (List Char → Option (List Char)) :=
  [matchParenActive, matchParenCases, matchBareActive, matchBareCases]

/-- Model of the stripping loop (lines 584-590): each iteration recomputes
`Therapist_Name` from the original `Therapist` value — the accumulator of
the fold is ignored, exactly as each loop iteration ignores the previous
assignment — so the final value reflects only the last pattern. -/
def stripTherapistName (orig : String) : String :=
  caseloadStripMatchers.foldl (fun _ m => stripWs (String.mk (scanReplace m orig.toList))) orig

/-! ## Cross-source patient merging (kml_generator.py lines 276-419)

`create_patient_pins_kml` receives the list of `(file_name, dataframe)`
pairs in processing order, parses each file name with
`re.match(r'(.+?)_(OT|PT)_Processed\.csv', df_name)` (pairs that do not
match are skipped, as are empty frames — folding an empty row list is a
no-op), and builds the dict `processed_patients` keyed by
`str(row['Patient_Id'])`.  A new id stores the whole row, the singleton
discipline set and the organisation; an existing id only gets the
discipline added.  Python dict/set semantics are modelled by an association
list with unique keys and an insertion-ordered duplicate-free list. -/

/-- Lazy scan for `(.+?)_(OT|PT)_…` against two literal suffixes: the group
grows one character at a time (never across a newline) and stops at the
first position where one of the suffixes follows (the `OT` alternative is
tried first, as in the pattern). -/
def lazySuffixScan (sufOT sufPT : List Char) (acc : List Char) :
    List Char → Option (String × String)
  | [] => none
  | c :: rest =>
    if c == '\n' then none
    else if headMatches sufOT rest then some (String.mk (c :: acc).reverse, "OT")
    else if headMatches sufPT rest then some (String.mk (c :: acc).reverse, "PT")
    else lazySuffixScan sufOT sufPT (c :: acc) rest

/-- Model of `re.match(r'(.+?)_(OT|PT)_Processed\.csv', df_name)` returning
`(organisation, discipline)` (kml_generator.py line 331). -/
def parseProcessedName (s : String) : Option (String × String) :=
  lazySuffixScan "_OT_Processed.csv".toList "_PT_Processed.csv".toList [] s.toList

/-- One entry of the `processed_patients` dict (lines 344-349): the stored
row, the discipline set (insertion-ordered, duplicate-free) and the
organisation of the sheet that created the entry. -/
structure MergedPatient where
  row : CRow
  disciplines : List String
  org : String
deriving DecidableEq, Repr

/-- Python dict lookup `processed_patients[pid]`: the entry stored under a
patient id (keys are unique by construction). -/
def lookupPatient : List (String × MergedPatient) → String → Option MergedPatient
  | [], _ => none
  | kv :: rest, pid => if kv.1 == pid then some kv.2 else lookupPatient rest pid

/-- Python `set.add` on an insertion-ordered duplicate-free list. -/
def insertDisc (ds : List String) (d : String) : List String :=
  if ds.contains d then ds else ds ++ [d]

/-- Add a discipline to the entry stored under `pid` (lines 350-352). -/
def addDiscTo (pid d : String) : List (String × MergedPatient) → List (String × MergedPatient)
  | [] => []
  | kv :: rest =>
    if kv.1 == pid then
      (kv.1, { kv.2 with disciplines := insertDisc kv.2.disciplines d }) :: rest
    else kv :: addDiscTo pid d rest

/-- One row of the first collection pass (lines 341-352): create the entry
from this row when the id is new, otherwise only add the discipline. -/
def mergeRow (org disc : String) (m : List (String × MergedPatient)) (r : CRow) :
    List (String × MergedPatient) :=
  if (lookupPatient m r.patientId).isSome then addDiscTo r.patientId disc m
  else m ++ [(r.patientId, ⟨r, [disc], org⟩)]

/-- One `(df_name, df)` pair of the outer loop (lines 329-352). -/
def mergeSheet (m : List (String × MergedPatient)) (ns : String × List CRow) :
    List (String × MergedPatient) :=
  match parseProcessedName ns.1 with
  | some od => ns.2.foldl (mergeRow od.1 od.2) m
  | none => m

/-- The complete first pass of `create_patient_pins_kml`. -/
def mergePatients (sheets : List (String × List CRow)) : List (String × MergedPatient) :=
  sheets.foldl mergeSheet []

/-- The discipline display value of lines 404-408: the combined label when
both disciplines are present, otherwise `next(iter(disciplines))`, the first
(and only) element of the singleton set. -/
def displayDiscipline (ds : List String) : String :=
  if ds.contains "PT" && ds.contains "OT" then "PT and OT" else ds.headD ""

/-- Number of merged entries stored under a given id. -/
def countKey (m : List (String × MergedPatient)) (pid : String) : Nat :=
  (m.filter (fun kv => kv.1 == pid)).length

/-- The merge seen as a single fold: one step per canonical record, tagged
with its sheet's organisation and discipline. -/
def mergeStep (m : List (String × MergedPatient)) (t : String × String × CRow) :
    List (String × MergedPatient) :=
  mergeRow t.1 t.2.1 m t.2.2

/-- The records of all sheets in processing order, each tagged with its
sheet's parsed organisation and discipline (sheets whose name does not
parse contribute nothing). -/
def flattenSheets : List (String × List CRow) → List (String × String × CRow)
  | [] => []
  | ns :: rest =>
    (match parseProcessedName ns.1 with
     | some od => ns.2.map (fun r => (od.1, od.2, r))
     | none => []) ++ flattenSheets rest

/-- Disciplines under which a patient id occurs, in processing order. -/
def discsFor (pid : String) (l : List (String × String × CRow)) : List String :=
  (l.filter (fun t => t.2.2.patientId == pid)).map (fun t => t.2.1)

/-- The first tagged record carrying a given patient id, in processing
order (the record whose scalar fields the merge keeps). -/
def firstOccOf (pid : String) : List (String × String × CRow) → Option (String × String × CRow)
  | [] => none
  | t :: rest => if t.2.2.patientId == pid then some t else firstOccOf pid rest

/-! ## The driver loop (data_processor.py lines 736-832)

`main` enumerates `glob.glob(os.path.join(DATA_DIR, "*.xlsx"))` and feeds
each file to `process_excel_file` in exactly the order `glob` returned —
the list is never sorted.  The enumeration order is an input of this model:
`driverProcess` receives the `(basename, sheet)` list as the environment
produced it. -/

/-- Model of `re.search(r'(.+?)_(OT|PT)_With Cases', file_basename)`
(data_processor.py line 268): the leftmost start position wins, then the
lazy group grows as in `lazySuffixScan`. -/
def parseOfficeDiscipline (s : String) : Option (String × String) :=
  searchFrom s.toList
where
  searchFrom : List Char → Option (String × String)
    | [] => none
    | c :: rest =>
      match lazySuffixScan "_OT_With Cases".toList "_PT_With Cases".toList [] (c :: rest) with
      | some r => some r
      | none => searchFrom rest

/-- Office and discipline of a source file name, with the `Unknown`
fallback of lines 272-274. -/
def processExcelName (basename : String) : String × String :=
  match parseOfficeDiscipline basename with
  | some od => od
  | none => ("Unknown", "Unknown")

/-- Name of the output CSV written for a source file (line 455). -/
def outputCsvName (basename : String) : String :=
  let od := processExcelName basename
  od.1 ++ "_" ++ od.2 ++ "_Processed.csv"

/-- The per-file loop of `main` (lines 791-806): each enumerated file is
processed independently, in enumeration order; `none` marks a failed file
(no output CSV). -/
def driverProcess (files : List (String × Sheet)) : List (String × Option (List CRow)) :=
  files.map (fun fs => (outputCsvName fs.1, processSheet fs.2))

/-- The order in which `main` processes the enumerated source files: exactly
the enumeration order (`glob.glob` applies no sorting, and the loop at line
791 iterates the returned list as is). -/
def processedNames (files : List (String × Sheet)) : List String :=
  files.map (fun fs => fs.1)

/-! ## Concrete example inputs -/

/-- Sheet whose address cell embeds a city, state and zip different from the
dedicated columns. -/
def c4Sheet : Sheet :=
  ⟨["Patient Id", "Address", "City", "State", "Zip", "Status"],
   [["1", "123 Main St, Springfield, IL 62704", "Oldtown", "TX", "00000", "Active"]]⟩

/-- Sheet with one row of status `Inactive`. -/
def inactiveSheet : Sheet :=
  ⟨["Patient Id", "Address", "Status", "City", "State", "Zip"],
   [["7", "5 Elm St", "Inactive", "Springfield", "IL", "62704"]]⟩

/-- Sheet with no `Address` column at all. -/
def noAddressSheet : Sheet := ⟨["Patient Id", "Status"], [["1", "active"]]⟩

/-- Sheet whose only row has a status outside the allow-list. -/
def dischargedSheet : Sheet :=
  ⟨["Patient Id", "Address", "Status"], [["1", "X St", "Discharged"]]⟩

/-- Sheet with no `Status` column whose `Address` column contains the word
`active` inside `Proactive`. -/
def contentBoundSheet : Sheet := ⟨["Patient Id", "Address"], [["1", "Proactive Rd"]]⟩

/-- A patient record as it appears in an OT-labelled processed CSV. -/
def rowOT : CRow :=
  ⟨"P1", "[Name Not Available]", "N/A", "1 First St", "C", "NY", "11111", "active"⟩

/-- The same patient id as `rowOT` with a different address, from a
PT-labelled processed CSV. -/
def rowPT : CRow :=
  ⟨"P1", "[Name Not Available]", "N/A", "2 Second St", "C", "NY", "11111", "active"⟩

/-- Two processed sheets sharing one patient id, in processing order. -/
def mergeInput : List (String × List CRow) :=
  [("OfficeA_OT_Processed.csv", [rowOT]), ("OfficeA_PT_Processed.csv", [rowPT])]

/-- A minimal well-formed sheet. -/
def plainSheet : Sheet := ⟨["Patient Id", "Address", "Status"], [["1", "1 A St", "Active"]]⟩

/-- A directory enumeration that lists the files in descending name order
(permitted for `glob.glob`, whose result order is arbitrary). -/
def descFiles : List (String × Sheet) :=
  [("b_OT_With Cases.xlsx", plainSheet), ("a_OT_With Cases.xlsx", plainSheet)]

/-- Lexicographic code-point order on file names — the order Python's
`sorted` uses on strings — used to state "ascending by source filename". -/
def filenameLe (a b : String) : Bool := go a.toList b.toList
where
  go : List Char → List Char → Bool
    | [], _ => true
    | _ :: _, [] => false
    | x :: xs, y :: ys => if x == y then go xs ys else decide (x.toNat < y.toNat)

/-! # Theorems -/

/-- Claim C2, settled against the code: `clean_address` is not idempotent.
On the address `"1 A 22222, B, NY 11111 xyz"` (with its own normalized city,
state and zip) the first application yields `"1 A 22222"` — the trailing
`", B, NY 11111"` triple is truncated by the street pattern, whose greedy
first group keeps the bare `22222` token — and a second application then
removes `" 22222"` via the trailing-zip rule, yielding `"1 A"`.  The spec's
explicit idempotence contract is violated. -/
theorem C2_clean_address_not_idempotent :
    clean_address "1 A 22222, B, NY 11111 xyz" "B" "NY" "11111" = "1 A 22222" ∧
    clean_address "1 A 22222" "B" "NY" "11111" = "1 A" ∧
    ("1 A 22222" : String) ≠ "1 A" :=
  ⟨rfl, rfl, by decide⟩

/-- Claim C3, counterexample: on a sheet with columns `Patient Id` and
`Address` and no `Status` column, where the address value `Proactive Rd`
contains the keyword `active`, the tier-3 content scan binds the `Address`
column (index 1) to `Status` as well, so one source column is bound to two
different canonical fields. -/
theorem C3_counterexample_double_binding :
    ("Address", 1) ∈ resolveColumns contentBoundSheet ∧
    ("Status", 1) ∈ resolveColumns contentBoundSheet ∧
    ("Address" : String) ≠ "Status" := by decide

/-- Claim C3 as amended: when `Status` is not bound by name and the
positional fallback fails, the tier-3 scan binds the first (left-to-right)
column whose values satisfy the content signature, without skipping columns
already bound to another field — in particular a column already bound to
`Address` is bound to `Status` as well. -/
theorem C3_tier3_binds_first_without_skipping (s : Sheet) (i : Nat)
    (h1 : s.headers.contains "Status" = false)
    (h2 : statusTier2 s = none)
    (h3 : statusTier3 s = some i) :
    resolveColumns s = resolveByName s.headers ++ [("Status", i)] ∧
    (("Address", i) ∈ resolveByName s.headers →
      ("Address", i) ∈ resolveColumns s ∧ ("Status", i) ∈ resolveColumns s) := by
  have h1m : "Status" ∉ s.headers := by simpa using h1
  have hmain : resolveColumns s = resolveByName s.headers ++ [("Status", i)] := by
    simp [resolveColumns, h1m, h2, h3]
  refine ⟨hmain, fun hmem => ?_⟩
  rw [hmain]
  exact ⟨List.mem_append_left _ hmem, List.mem_append_right _ (by simp)⟩

/-- Witness for the amended claim C3 at the concrete sheet
`contentBoundSheet`, whose first signature-satisfying column (index 1) is
already bound to `Address`. -/
theorem C3_tier3_binds_first_without_skipping_witness :
    resolveColumns contentBoundSheet =
      resolveByName contentBoundSheet.headers ++ [("Status", 1)] ∧
    (("Address", 1) ∈ resolveByName contentBoundSheet.headers →
      ("Address", 1) ∈ resolveColumns contentBoundSheet ∧
      ("Status", 1) ∈ resolveColumns contentBoundSheet) :=
  C3_tier3_binds_first_without_skipping contentBoundSheet 1 (by decide) (by decide) (by decide)

/-- Claim C4: the city, state and zip embedded in the address string
override the supplied column values.  Both the bare normalizer and the full
sheet pipeline (which also rewrites the `City`/`State`/`Zip` cells from the
embedded data) produce the expected result. -/
theorem C4_embedded_location_wins :
    clean_address "123 Main St, Springfield, IL 62704" "Oldtown" "TX" "00000" = "123 Main St" ∧
    processSheet c4Sheet =
      some [⟨"1", "[Name Not Available]", "N/A", "123 Main St",
        "Springfield", "IL", "62704", "active"⟩] :=
  ⟨rfl, rfl⟩

/-- Claim C5, counterexample: the therapist value
`"John Smith (19.0 Active Cases)"` matches the first stripping pattern
(removing it would give `"John Smith"`), yet the stripping loop leaves the
value unchanged, because every loop iteration restarts from the original
value and the final iteration's pattern (bare, lowercase `cases`) does not
match — the annotation is not removed. -/
theorem C5_counterexample_annotation_kept :
    stripTherapistName "John Smith (19.0 Active Cases)" = "John Smith (19.0 Active Cases)" ∧
    stripWs (String.mk (scanReplace matchParenActive
      ("John Smith (19.0 Active Cases)").toList)) = "John Smith" ∧
    ("John Smith (19.0 Active Cases)" : String) ≠ "John Smith" :=
  ⟨rfl, rfl, by decide⟩

/-- Claim C5 as amended: each stripping pattern is applied to the original
therapist value, with each assignment overwriting the previous one, so the
resulting clean display name reflects only the last pattern (bare
`N cases`, case-sensitive); annotations matching only the earlier patterns
are left in place. -/
theorem C5_only_last_pattern_effective (t : String) :
    stripTherapistName t = stripWs (String.mk (scanReplace matchBareCases t.toList)) := rfl

/-- Claim C6: whenever any of the required fields `Patient_Id`, `Address`,
`Status` is still unresolved after all three resolver tiers, the sheet
fails as a whole — `process_excel_file` returns `None` before writing any
output, so the sheet contributes no rows to any output. -/
theorem C6_missing_required_field_fails (s : Sheet)
    (h : requiredColumns.any (fun rq => !hasField (resolveColumns s) rq) = true) :
    processSheet s = none := by
  by_cases hA : s.rows.isEmpty <;> by_cases hB : (resolveColumns s).isEmpty <;>
    simp [processSheet, hA, hB, h]

/-- Witness for claim C6 on a sheet with no resolvable `Address` column. -/
theorem C6_missing_required_field_fails_witness :
    requiredColumns.any (fun rq => !hasField (resolveColumns noAddressSheet) rq) = true ∧
    processSheet noAddressSheet = none :=
  ⟨by decide, C6_missing_required_field_fails noAddressSheet (by decide)⟩

/-- Claim C9: status inclusion is substring containment on the lowercased
status, not exact membership; consequently the `Inactive` row of
`inactiveSheet` (whose lowercase form contains `active`) is retained in the
output rather than excluded. -/
theorem C9_status_substring_containment :
    (∀ (binds : List (String × Nat)) (r : List String),
      keepRow binds r =
        (isSubstr "active" (statusOfRow binds r) ||
          (isSubstr "home care" (statusOfRow binds r) ||
            isSubstr "pending" (statusOfRow binds r)))) ∧
    processSheet inactiveSheet =
      some [⟨"7", "[Name Not Available]", "N/A", "5 Elm St",
        "Springfield", "IL", "62704", "inactive"⟩] := by
  refine ⟨fun binds r => ?_, rfl⟩
  simp [keepRow, keepStatusKeywords]

/-- Claim C10: a non-empty sheet whose required columns resolve but whose
status filter excludes every row fails entirely: the unconditional
`filtered_df[col].iloc[0]` read on the empty filtered frame raises, the
outer handler catches, and `process_excel_file` returns `None` without
writing a CSV. -/
theorem C10_empty_filter_fails_sheet (s : Sheet)
    (h1 : s.rows.isEmpty = false)
    (h2 : requiredColumns.all (fun rq => hasField (resolveColumns s) rq) = true)
    (h3 : s.rows.filter (keepRow (resolveColumns s)) = []) :
    processSheet s = none := by
  have hB : (resolveColumns s).isEmpty = false := by
    cases hres : resolveColumns s with
    | nil => rw [hres] at h2; simp [requiredColumns, hasField] at h2
    | cons a l => simp
  have hC : requiredColumns.any (fun rq => !hasField (resolveColumns s) rq) = false := by
    simp only [requiredColumns, List.any_cons, List.any_nil, List.all_cons,
      List.all_nil] at h2 ⊢
    simp_all
  simp [processSheet, h1, hB, hC, h3]

/-- Witness for claim C10 on a sheet whose only row has status
`Discharged`. -/
theorem C10_empty_filter_fails_sheet_witness :
    dischargedSheet.rows.isEmpty = false ∧
    requiredColumns.all (fun rq => hasField (resolveColumns dischargedSheet) rq) = true ∧
    dischargedSheet.rows.filter (keepRow (resolveColumns dischargedSheet)) = [] ∧
    processSheet dischargedSheet = none :=
  ⟨by decide, by decide, by decide,
    C10_empty_filter_fails_sheet dischargedSheet (by decide) (by decide) (by decide)⟩

/-- Claim C8, counterexample: the driver processes the enumerated files in
exactly the enumeration order (`glob.glob` applies no sorting), so for a
directory enumeration that lists the files in descending name order the
sheets are not processed in ascending order of source filename. -/
theorem C8_counterexample_enumeration_order :
    processedNames descFiles = ["b_OT_With Cases.xlsx", "a_OT_With Cases.xlsx"] ∧
    filenameLe "a_OT_With Cases.xlsx" "b_OT_With Cases.xlsx" = true ∧
    filenameLe "b_OT_With Cases.xlsx" "a_OT_With Cases.xlsx" = false ∧
    processedNames descFiles ≠ ["a_OT_With Cases.xlsx", "b_OT_With Cases.xlsx"] :=
  ⟨rfl, by decide, by decide, by decide⟩

/-- Claim C8 as amended: sheets are processed in the enumeration order of
the input set, which the code does not sort; the per-file outputs are a
pure function of each file alone, so permuting the enumeration permutes the
outputs identically (and an identical enumeration reproduces identical
outputs). -/
theorem C8_output_permutation_equivariance (f1 f2 : List (String × Sheet))
    (h : f1.Perm f2) : (driverProcess f1).Perm (driverProcess f2) :=
  h.map _

/-- Witness for the amended claim C8: reversing the concrete enumeration
permutes the outputs. -/
theorem C8_output_permutation_equivariance_witness :
    (descFiles.reverse.Perm descFiles) ∧
    (driverProcess descFiles.reverse).Perm (driverProcess descFiles) :=
  ⟨List.reverse_perm descFiles,
    C8_output_permutation_equivariance _ _ (List.reverse_perm descFiles)⟩

/-! ## Lemmas about the merge fold -/

/-- Membership in `insertDisc`. -/
theorem mem_insertDisc (ds : List String) (d x : String) :
    x ∈ insertDisc ds d ↔ x ∈ ds ∨ x = d := by
  unfold insertDisc
  by_cases hd : d ∈ ds
  · rw [if_pos (by simpa using hd)]
    exact ⟨Or.inl, fun h => h.elim id (fun hx => by rw [hx]; exact hd)⟩
  · rw [if_neg (by simpa using hd)]
    simp

/-- Membership after folding `insertDisc` over a list of disciplines. -/
theorem mem_foldl_insertDisc (xs : List String) :
    ∀ (init : List String) (x : String),
      x ∈ xs.foldl insertDisc init ↔ x ∈ init ∨ x ∈ xs := by
  induction xs with
  | nil => simp
  | cons a xs ih =>
    intro init x
    rw [List.foldl_cons, ih, mem_insertDisc]
    simp
    tauto

/-- Lookup after `addDiscTo`: the entry under `k` gets the discipline
added, every other entry is untouched. -/
theorem lookupPatient_addDiscTo (k d pid : String) (m : List (String × MergedPatient)) :
    lookupPatient (addDiscTo k d m) pid =
      if k == pid then
        (lookupPatient m pid).map (fun e => { e with disciplines := insertDisc e.disciplines d })
      else lookupPatient m pid := by
  induction m with
  | nil => by_cases h : k == pid <;> simp [addDiscTo, lookupPatient, h]
  | cons kv m ih =>
    by_cases hk : kv.1 = k
    · by_cases hp : kv.1 = pid
      · have hkp : k = pid := hk.symm.trans hp
        simp [addDiscTo, lookupPatient, hk, hp, hkp]
      · have hkp : ¬k = pid := fun h => hp (hk.trans h)
        simp [addDiscTo, lookupPatient, hk, hp, hkp]
    · by_cases hp : kv.1 = pid
      · have hkp : ¬k = pid := fun h => hk (hp.trans h.symm)
        have hpk : ¬pid = k := fun h => hkp h.symm
        simp [addDiscTo, lookupPatient, hk, hp, hkp, hpk]
      · simp [addDiscTo, lookupPatient, hk, hp, ih]

/-- Lookup after appending one fresh entry. -/
theorem lookupPatient_append_single (m : List (String × MergedPatient)) (k : String)
    (v : MergedPatient) (pid : String) :
    lookupPatient (m ++ [(k, v)]) pid =
      match lookupPatient m pid with
      | some e => some e
      | none => if k == pid then some v else none := by
  induction m with
  | nil => simp [lookupPatient]
  | cons kv m ih =>
    by_cases hp : kv.1 = pid <;> simp [lookupPatient, hp, ih]

/-- Lookup after one merge step (kml_generator.py lines 344-352): for the
row's own id, a present entry only gains the discipline, an absent one is
created from this row; any other id is untouched. -/
theorem lookupPatient_mergeRow (o d : String) (m : List (String × MergedPatient))
    (r : CRow) (pid : String) :
    lookupPatient (mergeRow o d m r) pid =
      if r.patientId == pid then
        match lookupPatient m r.patientId with
        | some e => some { e with disciplines := insertDisc e.disciplines d }
        | none => some ⟨r, [d], o⟩
      else lookupPatient m pid := by
  unfold mergeRow
  cases hm : lookupPatient m r.patientId with
  | some e =>
    rw [if_pos (by simp), lookupPatient_addDiscTo]
    by_cases hp : r.patientId = pid
    · subst hp; simp [hm]
    · have hb : (r.patientId == pid) = false := by simpa using hp
      rw [hb]
      simp
  | none =>
    rw [if_neg (by simp), lookupPatient_append_single]
    by_cases hp : r.patientId = pid
    · subst hp; simp [hm]
    · have hb : (r.patientId == pid) = false := by simpa using hp
      rw [hb]
      cases lookupPatient m pid <;> simp

/-- Folding the tagged records over a state that already holds an entry for
`pid`: the stored row and organisation never change, and the disciplines
accumulate with `insertDisc`. -/
theorem lookup_foldl_stable (l : List (String × String × CRow)) :
    ∀ (m : List (String × MergedPatient)) (pid : String) (e : MergedPatient),
      lookupPatient m pid = some e →
      lookupPatient (l.foldl mergeStep m) pid =
        some { e with disciplines := (discsFor pid l).foldl insertDisc e.disciplines } := by
  induction l with
  | nil =>
    intro m pid e h
    simpa [discsFor] using h
  | cons t l ih =>
    intro m pid e h
    rw [List.foldl_cons]
    by_cases hp : t.2.2.patientId = pid
    · have h1 : lookupPatient (mergeStep m t) pid =
          some { e with disciplines := insertDisc e.disciplines t.2.1 } := by
        rw [mergeStep, lookupPatient_mergeRow, if_pos (by simp [hp]), hp, h]
      rw [ih _ _ _ h1]
      simp [discsFor, List.filter_cons, hp]
    · have hb : (t.2.2.patientId == pid) = false := by simpa using hp
      have h1 : lookupPatient (mergeStep m t) pid = some e := by
        rw [mergeStep, lookupPatient_mergeRow, hb]
        simpa using h
      rw [ih _ _ _ h1]
      simp [discsFor, List.filter_cons, hb]

/-- Folding the tagged records over a state with no entry for `pid`: either
`pid` never occurs and no entry appears, or the final entry carries the row
and organisation of the first occurrence and a discipline set whose members
are exactly the disciplines under which `pid` occurs. -/
theorem lookup_foldl_new (l : List (String × String × CRow)) :
    ∀ (m : List (String × MergedPatient)) (pid : String),
      lookupPatient m pid = none →
      ((firstOccOf pid l = none ∧ lookupPatient (l.foldl mergeStep m) pid = none) ∨
        (∃ t ds, firstOccOf pid l = some t ∧
          lookupPatient (l.foldl mergeStep m) pid = some ⟨t.2.2, ds, t.1⟩ ∧
          ∀ d, d ∈ ds ↔ d ∈ discsFor pid l)) := by
  induction l with
  | nil =>
    intro m pid h
    exact Or.inl ⟨rfl, by simpa using h⟩
  | cons t l ih =>
    intro m pid h
    rw [List.foldl_cons]
    by_cases hp : t.2.2.patientId = pid
    · refine Or.inr ⟨t, (discsFor pid l).foldl insertDisc [t.2.1], ?_, ?_, ?_⟩
      · simp [firstOccOf, hp]
      · have h1 : lookupPatient (mergeStep m t) pid = some ⟨t.2.2, [t.2.1], t.1⟩ := by
          rw [mergeStep, lookupPatient_mergeRow, if_pos (by simp [hp]), hp]
          simp [h]
        exact lookup_foldl_stable l _ _ _ h1
      · intro d
        rw [mem_foldl_insertDisc]
        simp [discsFor, List.filter_cons, hp]
    · have hb : (t.2.2.patientId == pid) = false := by simpa using hp
      have h1 : lookupPatient (mergeStep m t) pid = none := by
        rw [mergeStep, lookupPatient_mergeRow, hb]
        simpa using h
      rcases ih _ _ h1 with ⟨hf, hn⟩ | ⟨t0, ds, hf, hl, hm⟩
      · exact Or.inl ⟨by simp [firstOccOf, hb, hf], hn⟩
      · refine Or.inr ⟨t0, ds, by simp [firstOccOf, hb, hf], hl, ?_⟩
        intro d
        rw [hm]
        simp [discsFor, List.filter_cons, hb]

/-- One sheet of the merge equals a fold of its tagged records. -/
theorem mergeSheet_eq_foldl (m : List (String × MergedPatient)) (ns : String × List CRow) :
    mergeSheet m ns =
      (match parseProcessedName ns.1 with
        | some od => ns.2.map (fun r => (od.1, od.2, r))
        | none => []).foldl mergeStep m := by
  unfold mergeSheet
  cases parseProcessedName ns.1 with
  | none => rfl
  | some od =>
    show ns.2.foldl (mergeRow od.1 od.2) m =
      (ns.2.map (fun r => (od.1, od.2, r))).foldl mergeStep m
    rw [List.foldl_map]
    rfl

/-- The merge over all sheets equals the fold of the flattened tagged
records. -/
theorem mergePatients_eq_flatten (sheets : List (String × List CRow)) :
    mergePatients sheets = (flattenSheets sheets).foldl mergeStep [] := by
  suffices h : ∀ m, sheets.foldl mergeSheet m = (flattenSheets sheets).foldl mergeStep m from
    h []
  induction sheets with
  | nil => intro m; rfl
  | cons ns rest ih =>
    intro m
    rw [List.foldl_cons, flattenSheets, List.foldl_append, ih, mergeSheet_eq_foldl]

/-- A record with the right id somewhere in the list guarantees a first
occurrence. -/
theorem firstOccOf_isSome (pid : String) (l : List (String × String × CRow))
    (t : String × String × CRow) (ht : t ∈ l) (hp : t.2.2.patientId = pid) :
    (firstOccOf pid l).isSome := by
  induction l with
  | nil => cases ht
  | cons a l ih =>
    rcases List.mem_cons.mp ht with rfl | hmem
    · simp [firstOccOf, hp]
    · by_cases ha : a.2.2.patientId == pid <;> simp [firstOccOf, ha, ih hmem]

/-- Membership in the disciplines collected for an id. -/
theorem mem_discsFor (pid d : String) (l : List (String × String × CRow)) :
    d ∈ discsFor pid l ↔ ∃ t ∈ l, t.2.2.patientId = pid ∧ t.2.1 = d := by
  simp only [discsFor, List.mem_map, List.mem_filter, beq_iff_eq]
  constructor
  · rintro ⟨t, ⟨ht, hid⟩, rfl⟩
    exact ⟨t, ht, hid, rfl⟩
  · rintro ⟨t, ht, hid, rfl⟩
    exact ⟨t, ⟨ht, hid⟩, rfl⟩

/-- Membership in the flattened tagged records. -/
theorem mem_flattenSheets (o d : String) (r : CRow) (sheets : List (String × List CRow)) :
    (o, d, r) ∈ flattenSheets sheets ↔
      ∃ ns ∈ sheets, parseProcessedName ns.1 = some (o, d) ∧ r ∈ ns.2 := by
  induction sheets with
  | nil => simp [flattenSheets]
  | cons ns rest ih =>
    rw [flattenSheets, List.mem_append, ih]
    cases hp : parseProcessedName ns.1 with
    | none => simp [hp]
    | some od =>
      simp only [List.mem_map, List.mem_cons]
      constructor
      · rintro (⟨r0, hr0, heq⟩ | ⟨ns0, h0, hpp, hr⟩)
        · obtain ⟨rfl, rfl, rfl⟩ : od.1 = o ∧ od.2 = d ∧ r0 = r := by
            have h1 := congrArg Prod.fst heq
            have h2 := congrArg (fun t => t.2.1) heq
            have h3 := congrArg (fun t => t.2.2) heq
            exact ⟨h1, h2, h3⟩
          exact ⟨ns, Or.inl rfl, by rw [hp], hr0⟩
        · exact ⟨ns0, Or.inr h0, hpp, hr⟩
      · rintro ⟨ns0, h0 | h0, hpp, hr⟩
        · subst h0
          rw [hp] at hpp
          obtain ⟨rfl, rfl⟩ : od.1 = o ∧ od.2 = d := by
            have := Option.some.inj hpp
            exact ⟨congrArg Prod.fst this, congrArg Prod.snd this⟩
          exact Or.inl ⟨r, hr, rfl⟩
        · exact Or.inr ⟨ns0, h0, hpp, hr⟩

/-- Keys are untouched by `addDiscTo`. -/
theorem keysOf_addDiscTo (k d : String) (m : List (String × MergedPatient)) :
    (addDiscTo k d m).map Prod.fst = m.map Prod.fst := by
  induction m with
  | nil => rfl
  | cons kv m ih =>
    unfold addDiscTo
    by_cases hk : kv.1 = k <;> simp [hk, ih]

/-- Key counting only looks at the key list. -/
theorem countKey_eq_keys (m : List (String × MergedPatient)) (pid : String) :
    countKey m pid = ((m.map Prod.fst).filter (fun s => s == pid)).length := by
  rw [countKey, List.filter_map, List.length_map]
  rfl

/-- Key-count bookkeeping: `addDiscTo` preserves keys. -/
theorem countKey_addDiscTo (k d pid : String) (m : List (String × MergedPatient)) :
    countKey (addDiscTo k d m) pid = countKey m pid := by
  rw [countKey_eq_keys, countKey_eq_keys, keysOf_addDiscTo]

/-- Key-count bookkeeping for appending one entry. -/
theorem countKey_append_single (m : List (String × MergedPatient)) (k : String)
    (v : MergedPatient) (pid : String) :
    countKey (m ++ [(k, v)]) pid = countKey m pid + (if k == pid then 1 else 0) := by
  by_cases hk : k = pid <;> simp [countKey, List.filter_append, List.filter_cons, hk]

/-- The dict invariant: every id is stored at most once, exactly once when
present.  It is preserved by one merge step. -/
theorem keyInv_mergeRow (o d : String) (m : List (String × MergedPatient)) (r : CRow)
    (inv : ∀ q, countKey m q = if (lookupPatient m q).isSome then 1 else 0) :
    ∀ q, countKey (mergeRow o d m r) q =
      if (lookupPatient (mergeRow o d m r) q).isSome then 1 else 0 := by
  intro q
  rw [lookupPatient_mergeRow]
  unfold mergeRow
  cases hm : lookupPatient m r.patientId with
  | some e =>
    rw [if_pos (by simp), countKey_addDiscTo]
    by_cases hq : r.patientId = q
    · subst hq
      have hc := inv r.patientId
      rw [hm] at hc
      simpa using hc
    · have hb : (r.patientId == q) = false := by simpa using hq
      simp only [hb, Bool.false_eq_true, if_false]
      exact inv q
  | none =>
    rw [if_neg (by simp), countKey_append_single]
    by_cases hq : r.patientId = q
    · subst hq
      have hc := inv r.patientId
      rw [hm] at hc
      have h0 : countKey m r.patientId = 0 := by simpa using hc
      simp [h0]
    · have hb : (r.patientId == q) = false := by simpa using hq
      simp only [hb, Bool.false_eq_true, if_false]
      exact inv q

/-- The dict invariant is preserved by the whole fold. -/
theorem keyInv_foldl (l : List (String × String × CRow)) :
    ∀ (m : List (String × MergedPatient)),
      (∀ q, countKey m q = if (lookupPatient m q).isSome then 1 else 0) →
      ∀ q, countKey (l.foldl mergeStep m) q =
        if (lookupPatient (l.foldl mergeStep m) q).isSome then 1 else 0 := by
  induction l with
  | nil => intro m inv; exact inv
  | cons t l ih =>
    intro m inv
    rw [List.foldl_cons]
    exact ih _ (keyInv_mergeRow _ _ _ _ inv)

/-- The merge result satisfies the dict invariant. -/
theorem keyInv_mergePatients (sheets : List (String × List CRow)) :
    ∀ q, countKey (mergePatients sheets) q =
      if (lookupPatient (mergePatients sheets) q).isSome then 1 else 0 := by
  rw [mergePatients_eq_flatten]
  exact keyInv_foldl _ [] (fun q => rfl)

/-- Claim C1, counterexample: the patient id `P1` appears in two source
sheets; the most recently processed record (`rowPT`) has address
`2 Second St`, but the merged patient keeps the address `1 First St` of the
first processed record — the merge is first-write-wins, not
last-write-wins (an existing entry only gains a discipline, its stored row
is never overwritten). -/
theorem C1_counterexample_first_write_wins :
    (lookupPatient (mergePatients mergeInput) "P1").map (fun e => e.row.address) =
      some "1 First St" ∧
    rowPT.address = "2 Second St" ∧
    ("1 First St" : String) ≠ "2 Second St" :=
  ⟨rfl, rfl, by decide⟩

/-- Claim C1 as amended: for every patient id the merged entry's scalar
fields (the stored row) and organisation are those of the **first**
processed record bearing that id, while the discipline set is the union of
the disciplines of all source sheets containing the id. -/
theorem C1_first_record_scalars_union_disciplines
    (sheets : List (String × List CRow)) (pid : String) (e : MergedPatient)
    (h : lookupPatient (mergePatients sheets) pid = some e) :
    ∃ t, firstOccOf pid (flattenSheets sheets) = some t ∧
      e.row = t.2.2 ∧ e.org = t.1 ∧
      (∀ d, d ∈ e.disciplines ↔ d ∈ discsFor pid (flattenSheets sheets)) := by
  rw [mergePatients_eq_flatten] at h
  rcases lookup_foldl_new (flattenSheets sheets) [] pid rfl with ⟨_, hn⟩ | ⟨t, ds, hf, hl, hm⟩
  · rw [hn] at h; cases h
  · rw [hl] at h
    obtain rfl : e = ⟨t.2.2, ds, t.1⟩ := (Option.some.inj h).symm
    exact ⟨t, hf, rfl, rfl, hm⟩

/-- Witness for the amended claim C1 on the concrete two-sheet input. -/
theorem C1_first_record_scalars_union_disciplines_witness :
    ∃ t, firstOccOf "P1" (flattenSheets mergeInput) = some t ∧
      (⟨rowOT, ["OT", "PT"], "OfficeA"⟩ : MergedPatient).row = t.2.2 ∧
      (⟨rowOT, ["OT", "PT"], "OfficeA"⟩ : MergedPatient).org = t.1 ∧
      (∀ d, d ∈ (⟨rowOT, ["OT", "PT"], "OfficeA"⟩ : MergedPatient).disciplines ↔
        d ∈ discsFor "P1" (flattenSheets mergeInput)) :=
  C1_first_record_scalars_union_disciplines mergeInput "P1" ⟨rowOT, ["OT", "PT"], "OfficeA"⟩
    (by decide)

/-- Claim C7: a patient id present in both an OT-labelled and a PT-labelled
source sheet yields exactly one merged entry, and its displayed discipline
is the combined `PT and OT` label, whichever sheet order the merge
processes. -/
theorem C7_both_disciplines_combined (sheets : List (String × List CRow)) (pid : String)
    (hOT : ∃ ns ∈ sheets, (parseProcessedName ns.1).map (fun od => od.2) = some "OT" ∧
      ∃ r ∈ ns.2, r.patientId = pid)
    (hPT : ∃ ns ∈ sheets, (parseProcessedName ns.1).map (fun od => od.2) = some "PT" ∧
      ∃ r ∈ ns.2, r.patientId = pid) :
    countKey (mergePatients sheets) pid = 1 ∧
    ∃ e, lookupPatient (mergePatients sheets) pid = some e ∧
      displayDiscipline e.disciplines = "PT and OT" := by
  have hDisc : ∀ lab : String,
      (∃ ns ∈ sheets, (parseProcessedName ns.1).map (fun od => od.2) = some lab ∧
        ∃ r ∈ ns.2, r.patientId = pid) →
      lab ∈ discsFor pid (flattenSheets sheets) ∧
      ∃ t ∈ flattenSheets sheets, t.2.2.patientId = pid := by
    rintro lab ⟨ns, hns, hparse, r, hr, hid⟩
    obtain ⟨od, hod, hlab⟩ := Option.map_eq_some'.mp hparse
    have hmem : (od.1, lab, r) ∈ flattenSheets sheets := by
      rw [mem_flattenSheets]
      exact ⟨ns, hns, by rw [hod, ← hlab], hr⟩
    refine ⟨?_, ⟨(od.1, lab, r), hmem, hid⟩⟩
    rw [mem_discsFor]
    exact ⟨(od.1, lab, r), hmem, hid, rfl⟩
  obtain ⟨hOTmem, t1, ht1, hid1⟩ := hDisc "OT" hOT
  obtain ⟨hPTmem, -⟩ := hDisc "PT" hPT
  have hsome := firstOccOf_isSome pid (flattenSheets sheets) t1 ht1 hid1
  rcases lookup_foldl_new (flattenSheets sheets) [] pid rfl with ⟨hf, -⟩ | ⟨t, ds, -, hl, hm⟩
  · rw [hf] at hsome; cases hsome
  · have hlook : lookupPatient (mergePatients sheets) pid = some ⟨t.2.2, ds, t.1⟩ := by
      rw [mergePatients_eq_flatten]; exact hl
    refine ⟨?_, ⟨t.2.2, ds, t.1⟩, hlook, ?_⟩
    · rw [keyInv_mergePatients sheets pid, hlook]; rfl
    · have hPTds : "PT" ∈ ds := (hm "PT").mpr hPTmem
      have hOTds : "OT" ∈ ds := (hm "OT").mpr hOTmem
      unfold displayDiscipline
      rw [if_pos]
      rw [Bool.and_eq_true]
      exact ⟨by simpa using hPTds, by simpa using hOTds⟩

/-- Witness for claim C7 on the concrete two-sheet input. -/
theorem C7_both_disciplines_combined_witness :
    countKey (mergePatients mergeInput) "P1" = 1 ∧
    ∃ e, lookupPatient (mergePatients mergeInput) "P1" = some e ∧
      displayDiscipline e.disciplines = "PT and OT" :=
  C7_both_disciplines_combined mergeInput "P1" (by decide) (by decide)

end EMR
